import Mathlib

/-!
# Verification of the upbit HTTP latency tester

Shallow embedding of `src/src/index.ts` (class `HttpLatencyTester`).

Modelling conventions:
* Monotonic clock instants (`process.hrtime.bigint()`) are natural numbers of
  nanoseconds; `new Date()` capture times are abstract naturals.
* The HTTP transport (`undici.request` + `response.body.json()`) is an oracle:
  a `TransportOutcome` saying whether the try-block's awaited work succeeded
  (with the instant measured at index.ts:40, before the body read) or threw
  (with the instant measured in the catch block, and the thrown message).
  Any throw inside the try block — request failure, proxy-agent construction
  failure, or a body-parse failure after the success-path instant was taken —
  lands in the `err` constructor, whose instant is the catch-time instant,
  exactly as the code recomputes `end` at index.ts:53/99.
* JavaScript array reads out of bounds yield `undefined`; member access on
  `undefined` throws a `TypeError`.  `testWithProxy` builds its proxy label at
  index.ts:69 *outside* the `try`, so a call with an undefined config rejects.
  We model the config parameter as `Option ProxyConfig` and the function as
  `Except String LatencyResult`: `none ↦ Except.error`, mirroring that throw.
* `number` latencies are modelled as exact rationals: the code computes
  `Number(end - start) / 1_000_000`.
-/

structure ProxyConfig where
  ip : String
  port : Nat
  username : String
  password : String
deriving DecidableEq, Repr

structure LatencyResult where
  timestamp : Nat
  proxy : String
  latency : ℚ
  success : Bool
  error : Option String
  responseData : Option String
deriving DecidableEq, Repr

/-- Outcome of the awaited transport work inside the try block: either the
request settled (instant taken at index.ts:40 before the body read, and the
parsed body payload), or something threw (instant taken in the catch block,
plus the stringified error message). -/
inductive TransportOutcome where
  | ok (tEnd : Nat) (payload : String)
  | err (tFail : Nat) (message : String)
deriving DecidableEq, Repr

/-- `Number(end - start) / 1_000_000` (index.ts:41,54,87,100): nanosecond
difference converted to fractional milliseconds. -/
def latencyMs (tStart tEnd : Nat) : ℚ :=
  ((tEnd : ℚ) - (tStart : ℚ)) / 1000000

/-- `testDirect` (index.ts:29-64).  The whole awaited body is inside the
try/catch, so the function always returns a `LatencyResult`. -/
def testDirect (timestamp tStart : Nat) (tr : TransportOutcome) : LatencyResult :=
  match tr with
  | .ok tEnd payload =>
      { timestamp := timestamp, proxy := "direct", latency := latencyMs tStart tEnd,
        success := true, error := none, responseData := some payload }
  | .err tFail msg =>
      { timestamp := timestamp, proxy := "direct", latency := latencyMs tStart tFail,
        success := false, error := some msg, responseData := none }

/-- The `host:port` label built at index.ts:69. -/
def proxyLabel (cfg : ProxyConfig) : String :=
  cfg.ip ++ ":" ++ toString cfg.port

/-- `testWithProxy` (index.ts:66-110).  The label interpolation at line 69 runs
before the try block, so if the argument is `undefined` (an out-of-bounds pool
read forced through with `proxy!`), the member access throws a TypeError that
escapes the function; with a defined config every transport error is caught. -/
def testWithProxy (timestamp tStart : Nat) (cfg : Option ProxyConfig)
    (tr : TransportOutcome) : Except String LatencyResult :=
  match cfg with
  | none => Except.error "TypeError: Cannot read properties of undefined (reading ip)"
  | some c =>
      let proxyString := proxyLabel c
      match tr with
      | .ok tEnd payload =>
          Except.ok { timestamp := timestamp, proxy := proxyString,
                      latency := latencyMs tStart tEnd,
                      success := true, error := none, responseData := some payload }
      | .err tFail msg =>
          Except.ok { timestamp := timestamp, proxy := proxyString,
                      latency := latencyMs tStart tFail,
                      success := false, error := some msg, responseData := none }

/-!
## Scheduler

`runContinuousTesting` (index.ts:112-157) drives one probe per `setInterval`
tick.  A tick is embedded as a `TickEvent`: either the tick's probe runs with
a given transport outcome, or the tick dispatch itself throws before the
probe's result is logged (the path caught at index.ts:140, e.g. `logResult`
throwing).  Mutable state of one tick: the rotation cursor
(`currentProxyIndex`), the completion counter (`testsCompleted`), the list of
results handed to `logResult` (the output sink), and the scheduling errors
printed by `console.error` at index.ts:141.

This model is the SERIALIZED restriction of the program: it processes ticks
one at a time, so it covers exactly the executions in which every probe
settles before the next interval fires.  It is not the general semantics of
index.ts:121 - the unguarded `setInterval` keeps invoking the callback while
a slow probe is still in flight, and those overlapping executions behave
differently.  The general semantics is the event loop defined after the
timing model below (`runEventLoop`), and properties that the overlap breaks
are settled against that model; the serialized model is used only for
properties that hold per-invocation in every interleaving, and for
characterizing what the overrun-free executions do.
-/

inductive TickEvent where
  | probe (timestamp tStart : Nat) (tr : TransportOutcome)
  | dispatchError (message : String)
deriving DecidableEq, Repr

structure SchedState where
  cursor : Nat
  completed : Nat
  emitted : List LatencyResult
  schedErrors : List String
deriving DecidableEq, Repr

/-- One body of the `setInterval` callback (index.ts:121-148).  In proxy mode
with a non-empty pool it reads `proxies[currentProxyIndex]` (an out-of-bounds
read yields `undefined` and `testWithProxy` then rejects, which the outer
catch turns into the scheduling-error path); on a defined config the cursor
advances `(cursor + 1) % length` after the call returns, the result is logged
and the counter incremented.  Otherwise a direct probe runs.  A dispatch
error is caught, logged on the scheduling-error channel, and still counted. -/
def schedTick (useProxy : Bool) (pool : List ProxyConfig) (s : SchedState)
    (ev : TickEvent) : SchedState :=
  match ev with
  | .probe ts tStart tr =>
      if useProxy = true ∧ 0 < pool.length then
        match testWithProxy ts tStart (pool.get? s.cursor) tr with
        | .ok result =>
            { cursor := (s.cursor + 1) % pool.length,
              completed := s.completed + 1,
              emitted := s.emitted ++ [result],
              schedErrors := s.schedErrors }
        | .error e =>
            { s with completed := s.completed + 1,
                     schedErrors := s.schedErrors ++ [e] }
      else
        { s with completed := s.completed + 1,
                 emitted := s.emitted ++ [testDirect ts tStart tr] }
  | .dispatchError e =>
      { s with completed := s.completed + 1,
               schedErrors := s.schedErrors ++ [e] }

/-- The repeating timer, serialized (each callback body finishes before the
next tick runs - the overrun-free executions only; overlapping executions
are covered by `runEventLoop` below): tick `i` runs, then the loop stops as
soon as `count <= testsCompleted` (`clearInterval`, index.ts:136-138 and
144-146); the check is made only after a tick has run.  `fuel` bounds the
recursion and is chosen large enough at the call site to never run out. -/
def runFrom (useProxy : Bool) (pool : List ProxyConfig) (count : Nat)
    (events : Nat → TickEvent) : Nat → Nat → SchedState → SchedState
  | 0, _, s => s
  | fuel + 1, i, s =>
      let s2 := schedTick useProxy pool s (events i)
      if count ≤ s2.completed then s2
      else runFrom useProxy pool count events fuel (i + 1) s2

/-- Scheduler state at the start of a run: the tester's current rotation
cursor (`0` for a fresh instance, index.ts:22), `testsCompleted = 0`
(index.ts:119), nothing emitted, no scheduling errors. -/
def initState (cursor0 : Nat) : SchedState :=
  { cursor := cursor0, completed := 0, emitted := [], schedErrors := [] }

/-- `runContinuousTesting(intervalMs, useProxy, count)` started on a tester
whose rotation cursor currently holds `cursor0` - again the serialized
restriction: only the executions in which no probe overruns the interval. -/
def runContinuousTesting (useProxy : Bool) (pool : List ProxyConfig)
    (count : Nat) (events : Nat → TickEvent) (cursor0 : Nat) : SchedState :=
  runFrom useProxy pool count events (count + 1) 0 (initState cursor0)

/-- `n` consecutive serialized scheduler ticks (events `0, 1, ..., n-1`) from
a given state; the serialized `runContinuousTesting` is proved equal to this
fold below.  Like `runFrom`, this is a sequential fold of atomic ticks and so
covers none of the overlapping interleavings of the real scheduler. -/
def schedTicks (useProxy : Bool) (pool : List ProxyConfig)
    (events : Nat → TickEvent) (n : Nat) (s : SchedState) : SchedState :=
  (List.range n).foldl (fun t j => schedTick useProxy pool t (events j)) s

/-- The message of a dispatch-error tick, if any. -/
def dispatchMsg : TickEvent → Option String
  | .probe _ _ _ => none
  | .dispatchError m => some m

/-- An event stream in which no tick suffers a scheduling-dispatch error. -/
def allProbes (events : Nat → TickEvent) : Prop :=
  ∀ k, dispatchMsg (events k) = none

/-- The cursor invariant the program maintains: either the pool is empty (the
cursor is then never read) or the cursor is in bounds. -/
def cursorOK (pool : List ProxyConfig) (s : SchedState) : Prop :=
  pool = [] ∨ s.cursor < pool.length

/-- JavaScript array read `l[i]` for an integer index: `undefined` (`none`)
off either end. -/
def jsIndex (l : List ProxyConfig) (i : Int) : Option ProxyConfig :=
  if 0 ≤ i then l.get? i.toNat else none

/-- `singleTest(useProxy, proxyIndex?)` (index.ts:159-167) run against a
tester whose rotation cursor holds `cursor`.  JavaScript `%` is the
truncating remainder (`Int.tmod`), negative for a negative left operand, so a
negative `proxyIndex` can select `proxies[negative]`, i.e. `undefined`.  The
second component is the cursor after the call: the method never writes it. -/
def singleTest (useProxy : Bool) (proxyIndex : Option Int)
    (pool : List ProxyConfig) (cursor : Nat) (ts tStart : Nat)
    (tr : TransportOutcome) : Except String LatencyResult × Nat :=
  if useProxy = true ∧ 0 < pool.length then
    let index : Int :=
      match proxyIndex with
      | some pi => Int.tmod pi (pool.length : Int)
      | none => (cursor : Int)
    (testWithProxy ts tStart (jsIndex pool index) tr, cursor)
  else
    (Except.ok (testDirect ts tStart tr), cursor)

/-- Sample pool entries for concrete instantiations. -/
def cfgA : ProxyConfig := ⟨"1.1.1.1", 80, "u", "w"⟩

def cfgB : ProxyConfig := ⟨"2.2.2.2", 81, "u", "w"⟩

/-!
## Timing model of the schedule

`runContinuousTesting` arms `setInterval(async () => ..., intervalMs)`
(index.ts:121).  Node's `setInterval` fires its k-th callback invocation
(0-indexed) at `(k+1) * intervalMs` after arming, independent of whether the
promise returned by an earlier invocation of the async callback has settled:
no code in the repository re-arms the timer after the probe settles, and no
in-flight guard flag exists.  Each invocation starts its probe synchronously
at fire time (the first `await` is reached before the handler yields). -/

/-- Fire time of the k-th `setInterval` callback invocation. -/
def tickFireTime (intervalMs k : Nat) : Nat := (k + 1) * intervalMs

/-- The tick-k probe starts when its callback fires. -/
def probeStartTime (intervalMs k : Nat) : Nat := tickFireTime intervalMs k

/-- The tick-k probe settles after its round-trip duration `dur k`. -/
def probeEndTime (intervalMs : Nat) (dur : Nat → Nat) (k : Nat) : Nat :=
  probeStartTime intervalMs k + dur k

/-- The tick-k probe is in flight at instant `t`. -/
def probeInFlight (intervalMs : Nat) (dur : Nat → Nat) (k t : Nat) : Prop :=
  probeStartTime intervalMs k ≤ t ∧ t < probeEndTime intervalMs dur k

/-!
## The unserialized event loop

`setInterval` does not wait for the async callback: when a probe overruns the
interval, invocation k+1 starts while probe k is still in flight.  The
general semantics of index.ts:121-149 is therefore an event loop over two
kinds of events executed in time order:

* the k-th timer fire, at `tickFireTime intervalMs k`.  Unless the timer has
  been cleared, the callback runs synchronously up to its first await: in
  proxy mode it reads `proxies[currentProxyIndex]` at this instant
  (index.ts:126) and dispatches the probe; otherwise it dispatches a direct
  probe.  Nothing else of the tick body runs yet.
* the settlement of probe k, at `probeEndTime intervalMs dur k`.  The rest of
  the callback body runs: on the proxy path the cursor advances
  `(cursor + 1) % length` (index.ts:128), the result is logged, the counter
  increments, and once it reaches the count `clearInterval` is called
  (index.ts:136-139).  A cleared timer stops future fires, but
  `clearInterval` does not cancel pending promises: continuations of
  already-started probes still run.
-/

inductive LoopEvent where
  | fire (k : Nat)
  | settle (k : Nat)
deriving DecidableEq, Repr

/-- The instant at which an event occurs, under the timing model above. -/
def eventTime (intervalMs : Nat) (dur : Nat → Nat) : LoopEvent → Nat
  | .fire k => tickFireTime intervalMs k
  | .settle k => probeEndTime intervalMs dur k

/-- What a callback invocation started at fire time: a proxied probe with the
config read from the pool at that instant (`none` models an out-of-bounds
read, i.e. `undefined`), or a direct probe. -/
inductive StartedProbe where
  | viaProxy (cfg : Option ProxyConfig)
  | direct
deriving DecidableEq, Repr

structure AsyncState where
  cursor : Nat
  completed : Nat
  emitted : List LatencyResult
  schedErrors : List String
  cleared : Bool
  started : List (Nat × StartedProbe)
deriving DecidableEq, Repr

def initAsync : AsyncState :=
  { cursor := 0, completed := 0, emitted := [], schedErrors := [],
    cleared := false, started := [] }

/-- Timer fire k: a cleared timer no longer invokes the callback; otherwise
the callback body runs synchronously to its first await, selecting the probe
(and, in proxy mode, reading the pool at the current cursor now). -/
def fireStep (useProxy : Bool) (pool : List ProxyConfig) (s : AsyncState)
    (k : Nat) : AsyncState :=
  if s.cleared then s
  else if useProxy = true ∧ 0 < pool.length then
    { s with started := s.started ++ [(k, .viaProxy (pool.get? s.cursor))] }
  else
    { s with started := s.started ++ [(k, .direct)] }

/-- Settlement of probe k: the rest of the callback body (index.ts:127-148),
with the config captured at fire time.  The continuation runs even if the
timer was cleared in the meantime.  As in `schedTick`, a rejected
`testWithProxy` lands in the outer catch: logged on the scheduling-error
channel, counter still incremented, cursor not advanced. -/
def settleStep (pool : List ProxyConfig) (count : Nat) (tsf tstf : Nat → Nat)
    (trf : Nat → TransportOutcome) (s : AsyncState) (k : Nat) : AsyncState :=
  match s.started.lookup k with
  | none => s
  | some .direct =>
      { s with emitted := s.emitted ++ [testDirect (tsf k) (tstf k) (trf k)],
               completed := s.completed + 1,
               cleared := s.cleared || decide (count ≤ s.completed + 1) }
  | some (.viaProxy cfgOpt) =>
      match testWithProxy (tsf k) (tstf k) cfgOpt (trf k) with
      | .ok r =>
          { s with cursor := (s.cursor + 1) % pool.length,
                   emitted := s.emitted ++ [r],
                   completed := s.completed + 1,
                   cleared := s.cleared || decide (count ≤ s.completed + 1) }
      | .error e =>
          { s with schedErrors := s.schedErrors ++ [e],
                   completed := s.completed + 1,
                   cleared := s.cleared || decide (count ≤ s.completed + 1) }

/-- Execute a chronological list of fire/settle events.  `tsf k` and `tstf k`
are the `Date` capture and monotonic start instants of probe k, `trf k` its
transport outcome. -/
def runEventLoop (useProxy : Bool) (pool : List ProxyConfig) (count : Nat)
    (tsf tstf : Nat → Nat) (trf : Nat → TransportOutcome)
    (evs : List LoopEvent) (s : AsyncState) : AsyncState :=
  evs.foldl (fun st e =>
    match e with
    | .fire k => fireStep useProxy pool st k
    | .settle k => settleStep pool count tsf tstf trf st k) s

/-- Timeline of `setInterval` at 1000 ms with 2500 ms probes and count = 2:
fires at 1000, 2000, 3000, 4000, 5000 interleaved in time order with
settlements at 3500, 4500, 5500, 6500 (the fifth fire is suppressed because
the second settlement, at 4500, reaches the count and clears the timer). -/
def overrunTrace : List LoopEvent :=
  [.fire 0, .fire 1, .fire 2, .settle 0, .fire 3, .settle 1, .fire 4,
   .settle 2, .settle 3]

/-- Prefix of the same timeline used for the rotation counterexample: fires
at 1000, 2000, 3000, then settlements at 3500, 4500, 5500. -/
def rotationTrace : List LoopEvent :=
  [.fire 0, .fire 1, .fire 2, .settle 0, .settle 1, .settle 2]

/-!
## Theorems

First, structural lemmas about the scheduling loop, shared by the claims:
every tick increments the completion counter by exactly one, and the
fuel-bounded timer loop of `runContinuousTesting` executes exactly
`max count 1` ticks (one tick always runs before the stop check). -/

theorem schedTick_completed (u : Bool) (p : List ProxyConfig) (s : SchedState)
    (e : TickEvent) : (schedTick u p s e).completed = s.completed + 1 := by
  cases e with
  | probe ts t tr =>
      simp only [schedTick]
      split
      · rcases tr with _ | _ <;> rcases p.get? s.cursor with _ | _ <;> rfl
      · rfl
  | dispatchError m => rfl

theorem schedTicks_zero (u : Bool) (p : List ProxyConfig) (ev : Nat → TickEvent)
    (s : SchedState) : schedTicks u p ev 0 s = s := rfl

theorem schedTicks_succ (u : Bool) (p : List ProxyConfig) (ev : Nat → TickEvent)
    (n : Nat) (s : SchedState) :
    schedTicks u p ev (n + 1) s = schedTick u p (schedTicks u p ev n s) (ev n) := by
  simp [schedTicks, List.range_succ]

theorem schedTicks_completed (u : Bool) (p : List ProxyConfig)
    (ev : Nat → TickEvent) (n : Nat) (s : SchedState) :
    (schedTicks u p ev n s).completed = s.completed + n := by
  induction n with
  | zero => rfl
  | succ n ih => rw [schedTicks_succ, schedTick_completed, ih]; omega

theorem runFrom_eq_fold (u : Bool) (p : List ProxyConfig) (c : Nat)
    (ev : Nat → TickEvent) :
    ∀ fuel i s, s.completed = i → c ≤ i + fuel → i < c →
      runFrom u p c ev fuel i s =
        (List.range' i (c - i)).foldl (fun t j => schedTick u p t (ev j)) s := by
  intro fuel
  induction fuel with
  | zero => intro i s _ hle hlt; omega
  | succ fuel ih =>
      intro i s hc hle hlt
      have h2 : (schedTick u p s (ev i)).completed = i + 1 := by
        rw [schedTick_completed, hc]
      simp only [runFrom]
      by_cases hstop : c ≤ (schedTick u p s (ev i)).completed
      · rw [if_pos hstop]
        have hc1 : c = i + 1 := by omega
        subst hc1
        simp
      · rw [if_neg hstop]
        rw [ih (i + 1) _ h2 (by omega) (by omega)]
        have hsplit : c - i = (c - (i + 1)) + 1 := by omega
        rw [hsplit, List.range'_succ, List.foldl_cons]

theorem run_eq_schedTicks (u : Bool) (p : List ProxyConfig) (c : Nat)
    (ev : Nat → TickEvent) (c0 : Nat) :
    runContinuousTesting u p c ev c0 = schedTicks u p ev (max c 1) (initState c0) := by
  rcases Nat.eq_zero_or_pos c with hc | hc
  · subst hc
    simp only [runContinuousTesting, runFrom, Nat.zero_le, if_pos]
    have h1 : List.range 1 = [0] := rfl
    simp [schedTicks, h1]
  · have h1 : max c 1 = c := by omega
    rw [runContinuousTesting,
      runFrom_eq_fold u p c ev (c + 1) 0 _ rfl (by omega) hc, h1]
    simp [schedTicks, List.range_eq_range']

/-- In proxy mode with an in-bounds cursor, one probe tick appends exactly the
result of `testWithProxy` on the selected pool entry and advances the cursor
modulo the pool length. -/
theorem schedTick_proxy_char (p : List ProxyConfig) (s : SchedState)
    (ts t : Nat) (tr : TransportOutcome) (hcur : s.cursor < p.length) :
    ∃ r, testWithProxy ts t (p.get? s.cursor) tr = Except.ok r ∧
      schedTick true p s (.probe ts t tr) =
        { cursor := (s.cursor + 1) % p.length,
          completed := s.completed + 1,
          emitted := s.emitted ++ [r],
          schedErrors := s.schedErrors } := by
  have hsome : p.get? s.cursor = some (p.get ⟨s.cursor, hcur⟩) := List.get?_eq_get hcur
  have hpos : 0 < p.length := lt_of_le_of_lt (Nat.zero_le _) hcur
  obtain ⟨r, hr⟩ : ∃ r, testWithProxy ts t (p.get? s.cursor) tr = Except.ok r := by
    rw [hsome]; cases tr <;> exact ⟨_, rfl⟩
  refine ⟨r, hr, ?_⟩
  simp only [schedTick]
  split
  · rw [hr]
  · next h => exact absurd ⟨by trivial, hpos⟩ h

/-- A direct-mode tick (proxy disabled or empty pool) appends exactly the
`testDirect` result and leaves the cursor untouched. -/
theorem schedTick_direct_char (u : Bool) (p : List ProxyConfig) (s : SchedState)
    (ts t : Nat) (tr : TransportOutcome) (h : ¬(u = true ∧ 0 < p.length)) :
    schedTick u p s (.probe ts t tr) =
      { s with completed := s.completed + 1,
               emitted := s.emitted ++ [testDirect ts t tr] } := by
  simp only [schedTick]
  rw [if_neg h]

theorem schedTick_cursor_cases (u : Bool) (p : List ProxyConfig) (s : SchedState)
    (e : TickEvent) :
    (schedTick u p s e).cursor = s.cursor ∨
      (0 < p.length ∧ (schedTick u p s e).cursor = (s.cursor + 1) % p.length) := by
  cases e with
  | dispatchError m => left; rfl
  | probe ts t tr =>
      simp only [schedTick]
      split
      · next hcond =>
          split
          · exact Or.inr ⟨hcond.2, rfl⟩
          · left; rfl
      · left; rfl

theorem schedTick_cursorOK (u : Bool) (p : List ProxyConfig) (s : SchedState)
    (e : TickEvent) (h : cursorOK p s) : cursorOK p (schedTick u p s e) := by
  rcases schedTick_cursor_cases u p s e with hc | ⟨hpos, hc⟩
  · rcases h with hp | hlt
    · exact Or.inl hp
    · exact Or.inr (by rw [hc]; exact hlt)
  · exact Or.inr (by rw [hc]; exact Nat.mod_lt _ hpos)

theorem schedTicks_cursorOK (u : Bool) (p : List ProxyConfig) (ev : Nat → TickEvent)
    (n : Nat) (s : SchedState) (h : cursorOK p s) :
    cursorOK p (schedTicks u p ev n s) := by
  induction n with
  | zero => exact h
  | succ n ih => rw [schedTicks_succ]; exact schedTick_cursorOK _ _ _ _ ih

/-- A probe tick with a valid cursor emits exactly one result. -/
theorem schedTick_emitted_probe (u : Bool) (p : List ProxyConfig) (s : SchedState)
    (ts t : Nat) (tr : TransportOutcome) (h : cursorOK p s) :
    (schedTick u p s (.probe ts t tr)).emitted.length = s.emitted.length + 1 := by
  by_cases hcond : u = true ∧ 0 < p.length
  · rcases h with hp | hlt
    · rw [hp] at hcond; exact absurd hcond.2 (by simp)
    · rcases hcond with ⟨hu, _⟩
      subst hu
      obtain ⟨r, _, heq⟩ := schedTick_proxy_char p s ts t tr hlt
      rw [heq]; simp
  · rw [schedTick_direct_char u p s ts t tr hcond]; simp

theorem schedTick_emitted_dispatch (u : Bool) (p : List ProxyConfig)
    (s : SchedState) (m : String) :
    (schedTick u p s (.dispatchError m)).emitted = s.emitted := rfl

theorem schedTicks_emitted_length (u : Bool) (p : List ProxyConfig)
    (ev : Nat → TickEvent) (n : Nat) (s : SchedState)
    (hev : allProbes ev) (h : cursorOK p s) :
    (schedTicks u p ev n s).emitted.length = s.emitted.length + n := by
  induction n with
  | zero => rfl
  | succ n ih =>
      rw [schedTicks_succ]
      have hOK := schedTicks_cursorOK u p ev n s h
      have hn := hev n
      cases hevn : ev n with
      | probe ts t tr =>
          rw [schedTick_emitted_probe u p _ ts t tr hOK, ih]
          omega
      | dispatchError m => rw [hevn] at hn; exact absurd hn (by simp [dispatchMsg])

/-- A probe tick with a valid cursor never touches the scheduling-error log:
its `testWithProxy` call cannot reject. -/
theorem schedTick_schedErrors_probe (u : Bool) (p : List ProxyConfig)
    (s : SchedState) (ts t : Nat) (tr : TransportOutcome) (h : cursorOK p s) :
    (schedTick u p s (.probe ts t tr)).schedErrors = s.schedErrors := by
  by_cases hcond : u = true ∧ 0 < p.length
  · rcases h with hp | hlt
    · rw [hp] at hcond; exact absurd hcond.2 (by simp)
    · rcases hcond with ⟨hu, _⟩
      subst hu
      obtain ⟨r, _, heq⟩ := schedTick_proxy_char p s ts t tr hlt
      rw [heq]
  · rw [schedTick_direct_char u p s ts t tr hcond]

theorem schedTicks_schedErrors (u : Bool) (p : List ProxyConfig)
    (ev : Nat → TickEvent) (n : Nat) (s : SchedState) (h : cursorOK p s) :
    (schedTicks u p ev n s).schedErrors =
      s.schedErrors ++ (List.range n).filterMap (fun k => dispatchMsg (ev k)) := by
  induction n with
  | zero => simp [schedTicks_zero]
  | succ n ih =>
      rw [schedTicks_succ, List.range_succ, List.filterMap_append]
      have hOK := schedTicks_cursorOK u p ev n s h
      cases hevn : ev n with
      | probe ts t tr =>
          rw [schedTick_schedErrors_probe u p _ ts t tr hOK, ih]
          simp [dispatchMsg, hevn]
      | dispatchError m =>
          show (schedTicks u p ev n s).schedErrors ++ [m] = _
          rw [ih]
          simp [dispatchMsg, hevn]

/-- C4: For every ProbeResult produced by `testDirect` or by
`testWithProxy` on a defined config, exactly one of the success payload
(`responseData`) and the error description is populated, and the `success`
flag determines which one. -/
theorem probe_result_exclusive (ts t : Nat) (tr : TransportOutcome) :
    (((testDirect ts t tr).success = true ↔
        ((testDirect ts t tr).responseData.isSome ∧ (testDirect ts t tr).error = none)) ∧
      ((testDirect ts t tr).success = false ↔
        ((testDirect ts t tr).error.isSome ∧ (testDirect ts t tr).responseData = none))) ∧
    ∀ c r, testWithProxy ts t (some c) tr = Except.ok r →
      ((r.success = true ↔ (r.responseData.isSome ∧ r.error = none)) ∧
       (r.success = false ↔ (r.error.isSome ∧ r.responseData = none))) := by
  refine ⟨?_, ?_⟩
  · cases tr <;> simp [testDirect]
  · intro c r hr
    cases tr <;> simp [testWithProxy] at hr <;> subst hr <;> simp

/-- Closed instance of `probe_result_exclusive` at a concrete input. -/
theorem probe_result_exclusive_witness :
    (((testDirect 5 10 (TransportOutcome.ok 30 "body")).success = true ↔
        ((testDirect 5 10 (TransportOutcome.ok 30 "body")).responseData.isSome ∧
          (testDirect 5 10 (TransportOutcome.ok 30 "body")).error = none)) ∧
      ((testDirect 5 10 (TransportOutcome.ok 30 "body")).success = false ↔
        ((testDirect 5 10 (TransportOutcome.ok 30 "body")).error.isSome ∧
          (testDirect 5 10 (TransportOutcome.ok 30 "body")).responseData = none))) ∧
    ((LatencyResult.mk 5 (proxyLabel ⟨"1.2.3.4", 8080, "u", "pw"⟩)
        (latencyMs 10 30) true none (some "body")).success = true ↔
      ((LatencyResult.mk 5 (proxyLabel ⟨"1.2.3.4", 8080, "u", "pw"⟩)
          (latencyMs 10 30) true none (some "body")).responseData.isSome ∧
        (LatencyResult.mk 5 (proxyLabel ⟨"1.2.3.4", 8080, "u", "pw"⟩)
          (latencyMs 10 30) true none (some "body")).error = none)) :=
  ⟨(probe_result_exclusive 5 10 (TransportOutcome.ok 30 "body")).1,
    ((probe_result_exclusive 5 10 (TransportOutcome.ok 30 "body")).2
      ⟨"1.2.3.4", 8080, "u", "pw"⟩ _ rfl).1⟩

/-- C5: `testDirect` always returns a result, and `testWithProxy` on a
well-formed (defined) config never escapes with an exception: every transport
error becomes a failed result carrying the thrown message and the latency
measured up to the catch-time instant. -/
theorem probes_never_raise (ts t tf : Nat) (c : ProxyConfig) (m : String) :
    (∀ tr, ∃ r, testWithProxy ts t (some c) tr = Except.ok r) ∧
    testDirect ts t (.err tf m) =
      { timestamp := ts, proxy := "direct", latency := latencyMs t tf,
        success := false, error := some m, responseData := none } ∧
    testWithProxy ts t (some c) (.err tf m) =
      Except.ok { timestamp := ts, proxy := proxyLabel c, latency := latencyMs t tf,
                  success := false, error := some m, responseData := none } := by
  refine ⟨?_, rfl, rfl⟩
  intro tr; cases tr <;> exact ⟨_, rfl⟩

/-- C8: both probe operations record latency `(end - start) / 1e6` fractional
milliseconds in the success branch (success-path end instant) and in the
failure branch (catch-time instant), and the latency is nonnegative whenever
the monotonic end instant is at least the start instant. -/
theorem probe_latency (ts t te tf : Nat) (p m : String) (c : ProxyConfig)
    (hok : t ≤ te) (herr : t ≤ tf) :
    (testDirect ts t (.ok te p)).latency = latencyMs t te ∧
    (testDirect ts t (.err tf m)).latency = latencyMs t tf ∧
    (∀ r, testWithProxy ts t (some c) (.ok te p) = Except.ok r →
      r.latency = latencyMs t te) ∧
    (∀ r, testWithProxy ts t (some c) (.err tf m) = Except.ok r →
      r.latency = latencyMs t tf) ∧
    latencyMs t te = ((te : ℚ) - (t : ℚ)) / 1000000 ∧
    0 ≤ latencyMs t te ∧ 0 ≤ latencyMs t tf := by
  have nn : ∀ a b : Nat, a ≤ b → 0 ≤ latencyMs a b := by
    intro a b hab
    exact div_nonneg (sub_nonneg.mpr (by exact_mod_cast hab)) (by norm_num)
  refine ⟨rfl, rfl, ?_, ?_, rfl, nn t te hok, nn t tf herr⟩
  · intro r hr
    simp [testWithProxy] at hr
    subst hr; rfl
  · intro r hr
    simp [testWithProxy] at hr
    subst hr; rfl

/-- Closed instance of `probe_latency` at concrete instants. -/
theorem probe_latency_witness :
    (5 : Nat) ≤ 10 ∧ (5 : Nat) ≤ 12 ∧ 0 ≤ latencyMs 5 10 ∧ 0 ≤ latencyMs 5 12 :=
  ⟨by decide, by decide,
    (probe_latency 0 5 10 12 "p" "m" ⟨"a", 1, "u", "w"⟩ (by decide) (by decide)).2.2.2.2.2.1,
    (probe_latency 0 5 10 12 "p" "m" ⟨"a", 1, "u", "w"⟩ (by decide) (by decide)).2.2.2.2.2.2⟩

/-- Boundary behaviour of the loop (visible already in the serialized model,
i.e. in an execution with no overrun at all): the completion check
`testsCompleted >= count` runs only after a tick's probe has completed
(index.ts:136), so a schedule with `count = 0` still runs one tick and emits
one ProbeResult instead of zero. -/
theorem run_count_zero_emits_one :
    (runContinuousTesting false [] 0
        (fun k => TickEvent.probe k k (TransportOutcome.ok (k + 1) "p")) 0).emitted.length
      = 1 := by
  rfl

/-- Exactness over the serialized model, i.e. over the overrun-free
executions only: for every probe count N ≥ 1, every pool and either mode, a
schedule that runs to completion without external cancellation and without
scheduling-dispatch errors emits exactly N ProbeResults; the transport
outcome of each tick is arbitrary, so failed probes count exactly like
successful ones.  Overlapping executions emit more (see the event-loop
theorems below). -/
theorem run_emits_exactly_count (u : Bool) (p : List ProxyConfig) (N : Nat)
    (ev : Nat → TickEvent) (hN : 1 ≤ N) (hev : allProbes ev) :
    (runContinuousTesting u p N ev 0).emitted.length = N := by
  rw [run_eq_schedTicks]
  have h0 : cursorOK p (initState 0) := by
    cases p with
    | nil => exact Or.inl rfl
    | cons a l => exact Or.inr (by simp [initState])
  rw [schedTicks_emitted_length u p ev _ _ hev h0]
  simp [initState]
  omega

/-- Closed instance of `run_emits_exactly_count`: two ticks, one failing
probe, two emitted results. -/
theorem run_emits_exactly_count_witness :
    (1 : Nat) ≤ 2 ∧
    (runContinuousTesting false [] 2
        (fun k => TickEvent.probe k k (TransportOutcome.err (k + 1) "boom")) 0).emitted.length
      = 2 :=
  ⟨by decide,
    run_emits_exactly_count false [] 2
      (fun k => TickEvent.probe k k (TransportOutcome.err (k + 1) "boom"))
      (by decide) (fun k => rfl)⟩

/-- C9: a scheduling-dispatch error (the tick body throwing outside the probe,
index.ts:140-148) is caught: the run still executes its full `max count 1`
ticks and the completion counter reaches that value; the messages on the
scheduling-error channel are exactly the dispatch-error messages of the
processed ticks, kept apart from any probe result's error field; and every
dispatch error of a processed tick appears there. -/
theorem sched_error_caught_counted (u : Bool) (p : List ProxyConfig) (c : Nat)
    (ev : Nat → TickEvent) (c0 : Nat) (h : cursorOK p (initState c0)) :
    (runContinuousTesting u p c ev c0).completed = max c 1 ∧
    (runContinuousTesting u p c ev c0).schedErrors =
      (List.range (max c 1)).filterMap (fun k => dispatchMsg (ev k)) ∧
    ∀ k, k < max c 1 → ∀ m, ev k = TickEvent.dispatchError m →
      m ∈ (runContinuousTesting u p c ev c0).schedErrors := by
  have h1 : (runContinuousTesting u p c ev c0).completed = max c 1 := by
    rw [run_eq_schedTicks, schedTicks_completed]
    simp [initState]
  have h2 : (runContinuousTesting u p c ev c0).schedErrors =
      (List.range (max c 1)).filterMap (fun k => dispatchMsg (ev k)) := by
    rw [run_eq_schedTicks, schedTicks_schedErrors u p ev _ _ h]
    simp [initState]
  refine ⟨h1, h2, ?_⟩
  intro k hk m hm
  rw [h2]
  refine List.mem_filterMap.mpr ⟨k, List.mem_range.mpr hk, ?_⟩
  rw [hm]
  rfl

/-- Closed instance of `sched_error_caught_counted`: a three-tick schedule
whose middle tick dispatch throws still completes all three ticks and logs
the message on the scheduling-error channel. -/
theorem sched_error_caught_counted_witness :
    (runContinuousTesting false [] 3
        (fun k => if k = 1 then TickEvent.dispatchError "tick blew up"
                  else TickEvent.probe k k (TransportOutcome.ok (k + 1) "p")) 0).completed
      = max 3 1 ∧
    "tick blew up" ∈ (runContinuousTesting false [] 3
        (fun k => if k = 1 then TickEvent.dispatchError "tick blew up"
                  else TickEvent.probe k k (TransportOutcome.ok (k + 1) "p")) 0).schedErrors :=
  ⟨(sched_error_caught_counted false [] 3 _ 0 (Or.inl rfl)).1,
    (sched_error_caught_counted false [] 3 _ 0 (Or.inl rfl)).2.2 1 (by decide)
      "tick blew up" (by decide)⟩

/-- Rotation determinism over the serialized model, i.e. over the
overrun-free executions only, in proxy mode over a non-empty pool with every
tick a probe: after M ticks the cursor equals `M % L` (the cursor advances by
`(cursor + 1) % L` unconditionally after each proxied probe returns,
succeeded or failed), the k-th tick's probe goes through `pool[k % L]`, and
the serialized `runContinuousTesting` is exactly such a tick sequence of
length `max count 1`.  In overlapping executions the correspondence breaks
(see the event-loop theorems below). -/
theorem rotation_deterministic (p : List ProxyConfig) (ev : Nat → TickEvent)
    (hL : 0 < p.length) (hev : allProbes ev) :
    (∀ M, (schedTicks true p ev M (initState 0)).cursor = M % p.length) ∧
    (∀ k ts t tr, ev k = TickEvent.probe ts t tr →
      (schedTicks true p ev (k + 1) (initState 0)).emitted.get? k =
        (testWithProxy ts t (p.get? (k % p.length)) tr).toOption) ∧
    (∀ M, runContinuousTesting true p M ev 0 =
      schedTicks true p ev (max M 1) (initState 0)) := by
  have probeShape : ∀ k, ∃ ts t tr, ev k = TickEvent.probe ts t tr := by
    intro k
    have hk := hev k
    cases h : ev k with
    | probe a b c => exact ⟨a, b, c, rfl⟩
    | dispatchError m => rw [h] at hk; exact absurd hk (by simp [dispatchMsg])
  have hcur : ∀ M, (schedTicks true p ev M (initState 0)).cursor = M % p.length := by
    intro M
    induction M with
    | zero => simp [schedTicks_zero, initState]
    | succ M ih =>
        have hOK : (schedTicks true p ev M (initState 0)).cursor < p.length := by
          rw [ih]; exact Nat.mod_lt _ hL
        obtain ⟨ts, t, tr, hevM⟩ := probeShape M
        rw [schedTicks_succ, hevM]
        obtain ⟨r, _, heq⟩ := schedTick_proxy_char p _ ts t tr hOK
        rw [heq]
        show ((schedTicks true p ev M (initState 0)).cursor + 1) % p.length = _
        rw [ih, Nat.mod_add_mod]
  refine ⟨hcur, ?_, fun M => run_eq_schedTicks true p M ev 0⟩
  intro k ts t tr hk
  have hOK : (schedTicks true p ev k (initState 0)).cursor < p.length := by
    rw [hcur k]; exact Nat.mod_lt _ hL
  have hlen : (schedTicks true p ev k (initState 0)).emitted.length = k := by
    rw [schedTicks_emitted_length true p ev k _ hev (Or.inr hL)]
    simp [initState]
  obtain ⟨r, hr, heq⟩ := schedTick_proxy_char p _ ts t tr hOK
  rw [hcur k] at hr
  rw [schedTicks_succ, hk, heq]
  show ((schedTicks true p ev k (initState 0)).emitted ++ [r]).get? k =
    (testWithProxy ts t (p.get? (k % p.length)) tr).toOption
  have hcat : ((schedTicks true p ev k (initState 0)).emitted ++ [r]).get?
      ((schedTicks true p ev k (initState 0)).emitted.length) = some r := by simp
  rw [hlen] at hcat
  rw [hr]
  exact hcat

/-- Closed instance of `rotation_deterministic` on a two-entry pool: after
three ticks the cursor is `3 % 2 = 1` and tick 2 used `pool[0]`. -/
theorem rotation_deterministic_witness :
    (schedTicks true [cfgA, cfgB]
        (fun k => TickEvent.probe k k (TransportOutcome.ok (k + 1) "p")) 3
        (initState 0)).cursor = 3 % 2 ∧
    (schedTicks true [cfgA, cfgB]
        (fun k => TickEvent.probe k k (TransportOutcome.ok (k + 1) "p")) 3
        (initState 0)).emitted.get? 2 =
      (testWithProxy 2 2 ([cfgA, cfgB].get? (2 % 2))
        (TransportOutcome.ok 3 "p")).toOption :=
  ⟨(rotation_deterministic [cfgA, cfgB]
      (fun k => TickEvent.probe k k (TransportOutcome.ok (k + 1) "p"))
      (by decide) (fun k => rfl)).1 3,
    (rotation_deterministic [cfgA, cfgB]
      (fun k => TickEvent.probe k k (TransportOutcome.ok (k + 1) "p"))
      (by decide) (fun k => rfl)).2.1 2 2 2 (TransportOutcome.ok 3 "p") rfl⟩

theorem schedTick_empty_pool (u1 u2 : Bool) (s : SchedState) (e : TickEvent) :
    schedTick u1 [] s e = schedTick u2 [] s e := by
  cases e with
  | dispatchError m => rfl
  | probe ts t tr =>
      simp only [schedTick]
      rw [if_neg (by simp), if_neg (by simp)]

theorem runFrom_congr (u1 u2 : Bool) (p1 p2 : List ProxyConfig) (c : Nat)
    (ev : Nat → TickEvent)
    (h : ∀ s e, schedTick u1 p1 s e = schedTick u2 p2 s e) :
    ∀ fuel i s, runFrom u1 p1 c ev fuel i s = runFrom u2 p2 c ev fuel i s := by
  intro fuel
  induction fuel with
  | zero => intro i s; rfl
  | succ fuel ih =>
      intro i s
      simp only [runFrom]
      rw [h s (ev i)]
      by_cases hc : c ≤ (schedTick u2 p2 s (ev i)).completed
      · rw [if_pos hc, if_pos hc]
      · rw [if_neg hc, if_neg hc, ih]

theorem schedTicks_direct_labels (u : Bool) (p : List ProxyConfig)
    (ev : Nat → TickEvent) (hcond : ¬(u = true ∧ 0 < p.length)) (n : Nat)
    (s : SchedState) (h : ∀ r ∈ s.emitted, r.proxy = "direct") :
    ∀ r ∈ (schedTicks u p ev n s).emitted, r.proxy = "direct" := by
  induction n with
  | zero => exact h
  | succ n ih =>
      rw [schedTicks_succ]
      cases hevn : ev n with
      | dispatchError m =>
          intro r hr
          rw [schedTick_emitted_dispatch] at hr
          exact ih r hr
      | probe ts t tr =>
          rw [schedTick_direct_char u p _ ts t tr hcond]
          intro r hr
          simp only [List.mem_append, List.mem_singleton] at hr
          rcases hr with hr | hr
          · exact ih r hr
          · subst hr; cases tr <;> rfl

/-- C6: requesting proxy mode over an empty pool behaves identically to
disabling proxy mode: the two scheduler runs produce equal final states,
every emitted result carries the label "direct", and `singleTest` takes the
same direct path with the same label, for any optional index. -/
theorem empty_pool_degrades_to_direct (c : Nat) (ev : Nat → TickEvent)
    (pi : Option Int) (cur ts t : Nat) (tr : TransportOutcome) :
    runContinuousTesting true [] c ev 0 = runContinuousTesting false [] c ev 0 ∧
    (∀ r ∈ (runContinuousTesting true [] c ev 0).emitted, r.proxy = "direct") ∧
    singleTest true pi [] cur ts t tr = singleTest false pi [] cur ts t tr ∧
    (singleTest true pi [] cur ts t tr).1 = Except.ok (testDirect ts t tr) ∧
    (testDirect ts t tr).proxy = "direct" := by
  have hcond : ¬(true = true ∧ 0 < ([] : List ProxyConfig).length) := by simp
  refine ⟨?_, ?_, ?_, ?_, ?_⟩
  · exact runFrom_congr true false [] [] c ev
      (fun s e => schedTick_empty_pool true false s e) (c + 1) 0 (initState 0)
  · rw [run_eq_schedTicks]
    exact schedTicks_direct_labels true [] ev hcond _ (initState 0)
      (by intro r hr; simp [initState] at hr)
  · simp only [singleTest]
    rw [if_neg (by simp), if_neg (by simp)]
  · simp only [singleTest]
    rw [if_neg (by simp)]
  · cases tr <;> rfl

/-- Closed instance of `empty_pool_degrades_to_direct`. -/
theorem empty_pool_degrades_witness :
    runContinuousTesting true [] 2
        (fun k => TickEvent.probe k k (TransportOutcome.ok (k + 1) "p")) 0 =
      runContinuousTesting false [] 2
        (fun k => TickEvent.probe k k (TransportOutcome.ok (k + 1) "p")) 0 ∧
    (testDirect 0 0 (TransportOutcome.ok 1 "p")).proxy = "direct" :=
  ⟨(empty_pool_degrades_to_direct 2
      (fun k => TickEvent.probe k k (TransportOutcome.ok (k + 1) "p"))
      none 0 0 0 (TransportOutcome.ok 1 "p")).1,
    (empty_pool_degrades_to_direct 2
      (fun k => TickEvent.probe k k (TransportOutcome.ok (k + 1) "p"))
      none 0 0 0 (TransportOutcome.ok 1 "p")).2.2.2.2⟩

/-- C7: `singleTest` never mutates the shared rotation cursor, whatever the
mode flag, optional index, pool contents and prior cursor value: the cursor
after the call is the cursor before it. -/
theorem singleTest_preserves_cursor (u : Bool) (pi : Option Int)
    (p : List ProxyConfig) (cur ts t : Nat) (tr : TransportOutcome) :
    (singleTest u pi p cur ts t tr).2 = cur := by
  simp only [singleTest]
  split <;> rfl

/-- C10 is false as stated: JavaScript `%` is the truncating remainder, so
`proxyIndex = -1` on a two-entry pool gives index `-1`, which is not in
`[0, pool.length)`; `proxies[-1]` is `undefined` and `testWithProxy` throws a
TypeError instead of returning a ProbeResult. -/
theorem singleTest_negative_index_throws :
    (singleTest true (some (-1)) [cfgA, cfgB] 0 0 0 (TransportOutcome.ok 1 "p")).1 =
      Except.error "TypeError: Cannot read properties of undefined (reading ip)" := by
  rfl

/-- C10 amended: for every proxyIndex ≥ 0 and non-empty pool, the remainder
`proxyIndex % pool.length` lands in `[0, pool.length)`, the selected pool
entry exists, and `singleTest(true, proxyIndex)` returns a ProbeResult
rather than raising. -/
theorem singleTest_nonneg_index_safe (pi : Int) (p : List ProxyConfig)
    (cur ts t : Nat) (tr : TransportOutcome) (hpi : 0 ≤ pi) (hp : p ≠ []) :
    0 ≤ Int.tmod pi (p.length : Int) ∧
    Int.tmod pi (p.length : Int) < (p.length : Int) ∧
    ∃ r, (singleTest true (some pi) p cur ts t tr).1 = Except.ok r := by
  have hL : 0 < p.length := List.length_pos.mpr hp
  have hLi : (0 : Int) < (p.length : Int) := by exact_mod_cast hL
  have h1 : 0 ≤ Int.tmod pi (p.length : Int) := Int.tmod_nonneg _ hpi
  have h2 : Int.tmod pi (p.length : Int) < (p.length : Int) :=
    Int.tmod_lt_of_pos pi hLi
  refine ⟨h1, h2, ?_⟩
  have hidx : jsIndex p (Int.tmod pi (p.length : Int)) =
      p.get? (Int.tmod pi (p.length : Int)).toNat := by
    simp [jsIndex, h1]
  have hlt : (Int.tmod pi (p.length : Int)).toNat < p.length := by omega
  obtain ⟨cfg, hcfg⟩ : ∃ cfg,
      p.get? (Int.tmod pi (p.length : Int)).toNat = some cfg :=
    ⟨_, List.get?_eq_get hlt⟩
  have hstep : singleTest true (some pi) p cur ts t tr =
      (testWithProxy ts t (jsIndex p (Int.tmod pi (p.length : Int))) tr, cur) := by
    simp only [singleTest]
    rw [if_pos ⟨by trivial, hL⟩]
  rw [hstep, hidx, hcfg]
  cases tr <;> exact ⟨_, rfl⟩

/-- Closed instance of `singleTest_nonneg_index_safe` at proxyIndex 3 on the
two-entry pool. -/
theorem singleTest_nonneg_index_safe_witness :
    (0 : Int) ≤ 3 ∧ ([cfgA, cfgB] : List ProxyConfig) ≠ [] ∧
    (0 ≤ Int.tmod 3 (([cfgA, cfgB] : List ProxyConfig).length : Int) ∧
     Int.tmod 3 (([cfgA, cfgB] : List ProxyConfig).length : Int) <
       (([cfgA, cfgB] : List ProxyConfig).length : Int) ∧
     ∃ r, (singleTest true (some 3) [cfgA, cfgB] 0 0 0
        (TransportOutcome.ok 1 "p")).1 = Except.ok r) :=
  ⟨by decide, by simp,
    singleTest_nonneg_index_safe 3 [cfgA, cfgB] 0 0 0
      (TransportOutcome.ok 1 "p") (by decide) (by simp)⟩

/-- C1 fails on the code: `setInterval` over an async callback with no
in-flight guard (index.ts:121) fires tick k at `(k+1) * intervalMs` whether
or not the previous probe has settled.  With intervalMs = 1000 and a 2500 ms
round trip, the probe of tick 0 is in flight from 1000 to 3500, so at
t = 2000 the tick-1 probe starts while it is still in flight: two probes in
flight at once, and tick 0's probe has not completed when tick 1's begins. -/
theorem setInterval_overlapping_probes :
    probeInFlight 1000 (fun _ => 2500) 0 2000 ∧
    probeInFlight 1000 (fun _ => 2500) 1 2000 ∧
    probeStartTime 1000 1 < probeEndTime 1000 (fun _ => 2500) 0 := by
  refine ⟨⟨?_, ?_⟩, ⟨?_, ?_⟩, ?_⟩ <;>
    norm_num [probeInFlight, probeStartTime, probeEndTime, tickFireTime]

/-- C2 fails on the code because of the unguarded `setInterval` (the C1 bug):
with count = 2, a 1000 ms interval and 2500 ms probes (direct mode), fires at
1000-4000 ms all start probes before the second settlement (at 4500 ms)
reaches the count and clears the timer; clearing suppresses only the fifth
fire, and the two probes already in flight still settle and log, so the run
emits and counts 4 ProbeResults instead of 2.  The first conjunct checks
that the trace's instants are those of the timing model, in increasing
order. -/
theorem async_overrun_emits_extra :
    overrunTrace.map (eventTime 1000 (fun _ => 2500)) =
      [1000, 2000, 3000, 3500, 4000, 4500, 5000, 5500, 6500] ∧
    (runEventLoop false [] 2 (fun k => k) (tickFireTime 1000)
        (fun k => TransportOutcome.ok (probeEndTime 1000 (fun _ => 2500) k) "p")
        overrunTrace initAsync).emitted.length = 4 ∧
    (runEventLoop false [] 2 (fun k => k) (tickFireTime 1000)
        (fun k => TransportOutcome.ok (probeEndTime 1000 (fun _ => 2500) k) "p")
        overrunTrace initAsync).completed = 4 ∧
    (runEventLoop false [] 2 (fun k => k) (tickFireTime 1000)
        (fun k => TransportOutcome.ok (probeEndTime 1000 (fun _ => 2500) k) "p")
        overrunTrace initAsync).cleared = true := by
  refine ⟨rfl, rfl, rfl, rfl⟩

/-- C3 fails on the code because of the unguarded `setInterval` (the C1 bug):
with pool [A, B], a 1000 ms interval and 2500 ms probes, invocations 0, 1, 2
all fire (at 1000, 2000, 3000 ms) before the first settlement (at 3500 ms)
advances the cursor, so each reads `currentProxyIndex = 0` and tick 1's probe
goes through pool[0] = A, although the claim requires pool[1 mod 2] = B; the
emitted result of tick 1 accordingly carries A's label.  The first conjunct
checks that the trace's instants are those of the timing model, in
increasing order. -/
theorem async_rotation_corrupted :
    rotationTrace.map (eventTime 1000 (fun _ => 2500)) =
      [1000, 2000, 3000, 3500, 4500, 5500] ∧
    (runEventLoop true [cfgA, cfgB] 10 (fun k => k) (tickFireTime 1000)
        (fun k => TransportOutcome.ok (probeEndTime 1000 (fun _ => 2500) k) "p")
        rotationTrace initAsync).started.lookup 1 =
      some (StartedProbe.viaProxy (some cfgA)) ∧
    [cfgA, cfgB].get? (1 % 2) = some cfgB ∧
    cfgA ≠ cfgB ∧
    ((runEventLoop true [cfgA, cfgB] 10 (fun k => k) (tickFireTime 1000)
        (fun k => TransportOutcome.ok (probeEndTime 1000 (fun _ => 2500) k) "p")
        rotationTrace initAsync).emitted.get? 1).map (fun r => r.proxy) =
      some (proxyLabel cfgA) ∧
    proxyLabel cfgA ≠ proxyLabel cfgB := by
  refine ⟨rfl, ?_, rfl, by decide, ?_, by decide⟩ <;> rfl
